import Mathlib

/-!
Verification of the order-fulfillment event system: an Order Lifecycle
Coordinator (orders-service) and an Inventory Ledger (inventory-service)
communicating over a publish/subscribe bus.

The TypeScript sources are embedded shallowly:
* JavaScript `Map` objects become association lists with `Map.get`
  (first entry with the key), `Map.set` (replace in place, else append)
  and `Map.delete` semantics.
* Each handler becomes a pure function from the owned state and the
  incoming message to the new state paired with the list of events the
  handler publishes on the bus, in publish order.
* Calls to `Date.now()` / `new Date()` inside a handler become an
  explicit clock parameter of the handler.
* Monetary amounts (`totalAmount`, `price`) are only carried around,
  never computed with, so they are embedded as `Int`; stock counts and
  quantities take part in arithmetic and are embedded as `Int` exactly
  as JavaScript integer arithmetic behaves on them (they may go
  negative, nothing clamps them).
* Console logging is external output (out of scope per the design) and
  is not part of the embedded state or results.
-/

/-! ### Association lists with JavaScript `Map` semantics -/

/-- `Map.get k`: value of the first entry whose key is `k`. -/
def alGet {α : Type} (m : List (String × α)) (k : String) : Option α :=
  match m with
  | [] => none
  | (k', v) :: rest => if k' = k then some v else alGet rest k

/-- `Map.set k v`: replace the value at the first entry with key `k`,
keeping its position; append a new entry when `k` is absent. -/
def alSet {α : Type} (m : List (String × α)) (k : String) (v : α) :
    List (String × α) :=
  match m with
  | [] => [(k, v)]
  | (k', v') :: rest =>
      if k' = k then (k, v) :: rest else (k', v') :: alSet rest k v

/-- `Map.delete k`: remove the first entry whose key is `k`. -/
def alErase {α : Type} (m : List (String × α)) (k : String) :
    List (String × α) :=
  match m with
  | [] => []
  | (k', v') :: rest =>
      if k' = k then rest else (k', v') :: alErase rest k

/-- `Map.has k`. -/
def alHas {α : Type} (m : List (String × α)) (k : String) : Bool :=
  (alGet m k).isSome

/-! ### Orders service (`services/orders-service/src/index.ts`) -/

/-- `type OrderStatus` from the orders service. -/
inductive OrderStatus
  | pending
  | confirmed
  | shipped
  | delivered
  | completed
  | cancelled
deriving DecidableEq

/-- `interface OrderItem` — one line of an order. -/
structure OrderItem where
  itemId : String
  quantity : Int
  price : Int
deriving DecidableEq

/-- `interface Order` — the per-order record kept in `this.orders`.
`createdAt` is the clock value observed when the record was created. -/
structure Order where
  orderId : String
  userId : String
  totalAmount : Int
  items : List OrderItem
  status : OrderStatus
  createdAt : Nat
deriving DecidableEq

/-- The `orders` map of `OrdersService`. -/
abbrev OrdersMap : Type := List (String × Order)

/-- Payload of an incoming `order.created` message. -/
structure OrderCreatedMsg where
  orderId : String
  userId : String
  totalAmount : Int
  items : List OrderItem
deriving DecidableEq

/-- Payload of an incoming `payment.failed` message. -/
structure PaymentFailedMsg where
  paymentId : String
  orderId : String
  failureReason : String
deriving DecidableEq

/-- Payload of an incoming `shipment.delivered` message. -/
structure ShipmentDeliveredMsg where
  orderId : String
  shipmentId : String
  deliveryTime : String
deriving DecidableEq

/-- Events the orders service publishes on the bus. -/
inductive OrdersOutEvent
  | orderCancelled (orderId : String) (reason : String)
  | orderCompleted (orderId : String) (completionTime : String)
deriving DecidableEq

/-- `sendOrderCancelled`: publishes the `order.cancelled` event, then sets
the status of the matching order (if any) to `cancelled`. -/
def sendOrderCancelled (orders : OrdersMap) (orderId reason : String) :
    OrdersMap × List OrdersOutEvent :=
  let out := [OrdersOutEvent.orderCancelled orderId reason]
  match alGet orders orderId with
  | some o => (alSet orders orderId { o with status := .cancelled }, out)
  | none => (orders, out)

/-- `sendOrderCompleted`: publishes the `order.completed` event, then sets
the status of the matching order (if any) to `completed`. -/
def sendOrderCompleted (orders : OrdersMap) (orderId completionTime : String) :
    OrdersMap × List OrdersOutEvent :=
  let out := [OrdersOutEvent.orderCompleted orderId completionTime]
  match alGet orders orderId with
  | some o => (alSet orders orderId { o with status := .completed }, out)
  | none => (orders, out)

/-- `handleOrderCreated`: ignore the message when the order already
exists, otherwise register it as `pending`. `now` is the `new Date()`
observed for `createdAt`. Publishes nothing. -/
def handleOrderCreated (orders : OrdersMap) (data : OrderCreatedMsg)
    (now : Nat) : OrdersMap :=
  if alHas orders data.orderId then orders
  else
    alSet orders data.orderId
      { orderId := data.orderId
        userId := data.userId
        totalAmount := data.totalAmount
        items := data.items
        status := .pending
        createdAt := now }

/-- `handlePaymentFailed`: ignore when the order is unknown or already
`cancelled` (the source checks only `cancelled`, not `completed`);
otherwise cancel it via `sendOrderCancelled` with reason
`"Payment failed: " + failureReason`. -/
def handlePaymentFailed (orders : OrdersMap) (data : PaymentFailedMsg) :
    OrdersMap × List OrdersOutEvent :=
  match alGet orders data.orderId with
  | none => (orders, [])
  | some o =>
      if o.status = .cancelled then (orders, [])
      else
        sendOrderCancelled orders data.orderId
          ("Payment failed: " ++ data.failureReason)

/-- `handleShipmentDelivered`: ignore when the order is unknown,
`cancelled` or `completed`; otherwise complete it via
`sendOrderCompleted` with `completionTime = new Date().toISOString()`,
embedded as the clock parameter `now`. -/
def handleShipmentDelivered (orders : OrdersMap) (data : ShipmentDeliveredMsg)
    (now : String) : OrdersMap × List OrdersOutEvent :=
  match alGet orders data.orderId with
  | none => (orders, [])
  | some o =>
      if o.status = .cancelled then (orders, [])
      else if o.status = .completed then (orders, [])
      else sendOrderCompleted orders data.orderId now

/-- `cancelOrder(orderId, reason)`: public API; returns (TypeScript
`void`) after logging when the order is unknown, already `cancelled` or
already `completed`, otherwise cancels via `sendOrderCancelled`. -/
def cancelOrder (orders : OrdersMap) (orderId reason : String) :
    OrdersMap × List OrdersOutEvent :=
  match alGet orders orderId with
  | none => (orders, [])
  | some o =>
      if o.status = .cancelled then (orders, [])
      else if o.status = .completed then (orders, [])
      else sendOrderCancelled orders orderId reason

/-- `getOrder(orderId)`. -/
def getOrder (orders : OrdersMap) (orderId : String) : Option Order :=
  alGet orders orderId

/-- Error kinds the design document assigns to `cancelOrder`. -/
inductive CancelError
  | unknownOrder
  | alreadyTerminal
deriving DecidableEq

/-- Refinement-side definition, following the specification text for
`cancelOrder` word for word (not the source): the operator-initiated
cancellation "reports `UnknownOrder` or `AlreadyTerminal` as a non-fatal
error condition rather than silently ignoring", and otherwise performs
the same transition as payment failure with the given reason. -/
def cancelOrderSpecced (orders : OrdersMap) (orderId reason : String) :
    Except CancelError (OrdersMap × List OrdersOutEvent) :=
  match alGet orders orderId with
  | none => .error .unknownOrder
  | some o =>
      if o.status = .cancelled ∨ o.status = .completed then
        .error .alreadyTerminal
      else
        .ok (alSet orders orderId { o with status := .cancelled },
             [OrdersOutEvent.orderCancelled orderId reason])

/-! ### Inventory service (`services/inventory-service/src/index.ts`) -/

/-- `interface InventoryItem` — `{itemId, quantity}`. -/
structure InvItem where
  itemId : String
  quantity : Int
deriving DecidableEq

/-- The value stored in the `reservations` map (keyed by reservation id). -/
structure ResRecord where
  orderId : String
  items : List InvItem
deriving DecidableEq

/-- The two mutable globals of the inventory service:
`inventoryStore : Map<string, number>` and
`reservations : Map<string, {orderId, items}>`. -/
structure InvState where
  inventoryStore : List (String × Int)
  reservations : List (String × ResRecord)
deriving DecidableEq

/-- The seeded catalog the `inventoryStore` map is initialised with. -/
def inventoryStoreInit : List (String × Int) :=
  [("ITEM-001", 100), ("ITEM-002", 50), ("ITEM-003", 200), ("ITEM-004", 75)]

/-- Initial service state: seeded stock, no reservations. -/
def initInvState : InvState :=
  { inventoryStore := inventoryStoreInit, reservations := [] }

/-- `inventoryStore.get(itemId) || 0`. -/
def storeGet (store : List (String × Int)) (itemId : String) : Int :=
  (alGet store itemId).getD 0

/-- `checkInventoryAvailability(items)`: false as soon as one line has
`available < item.quantity`, true otherwise. -/
def checkInventoryAvailability (store : List (String × Int))
    (items : List InvItem) : Bool :=
  items.all (fun it => !(storeGet store it.itemId < it.quantity))

/-- `reserveInventory(items)`: decrement the store line by line. -/
def reserveInventory (store : List (String × Int)) (items : List InvItem) :
    List (String × Int) :=
  items.foldl
    (fun s it => alSet s it.itemId (storeGet s it.itemId - it.quantity)) store

/-- `releaseInventory(items)`: increment the store line by line. -/
def releaseInventory (store : List (String × Int)) (items : List InvItem) :
    List (String × Int) :=
  items.foldl
    (fun s it => alSet s it.itemId (storeGet s it.itemId + it.quantity)) store

/-- Payload of `order.created` as the inventory service reads it. -/
structure InvOrderCreatedMsg where
  orderId : String
  items : List InvItem
deriving DecidableEq

/-- Events the inventory service publishes on the bus. -/
inductive InvOutEvent
  | inventoryReserved (reservationId orderId : String) (items : List InvItem)
  | inventoryReleased (reservationId orderId : String) (items : List InvItem)
  | inventoryUpdated (itemId : String) (newQuantity : Int)
deriving DecidableEq

/-- The reservation id the handler builds: `` `RES-${Date.now()}` ``,
with the observed millisecond clock as explicit parameter. -/
def mkReservationId (nowMs : Nat) : String :=
  "RES-" ++ toString nowMs

/-- The `order.created` subscription handler in `main`: when every line
passes the availability check, decrement stock, store a reservation
under `` `RES-${Date.now()}` ``, publish `inventory.reserved` and one
`inventory.updated` per line (with the post-decrement quantity);
otherwise do nothing (the insufficient-stock case only logs). -/
def onOrderCreatedInv (st : InvState) (data : InvOrderCreatedMsg)
    (nowMs : Nat) : InvState × List InvOutEvent :=
  if checkInventoryAvailability st.inventoryStore data.items then
    let store1 := reserveInventory st.inventoryStore data.items
    let reservationId := mkReservationId nowMs
    let reservations1 :=
      alSet st.reservations reservationId
        { orderId := data.orderId, items := data.items }
    let updates := data.items.map
      (fun it => InvOutEvent.inventoryUpdated it.itemId (storeGet store1 it.itemId))
    (⟨store1, reservations1⟩,
     InvOutEvent.inventoryReserved reservationId data.orderId data.items :: updates)
  else (st, [])

/-- The linear scan in the `order.cancelled` handler: id of the first
reservation entry whose `orderId` matches. -/
def findReservationId (rs : List (String × ResRecord)) (orderId : String) :
    Option String :=
  match rs with
  | [] => none
  | (resId, r) :: rest =>
      if r.orderId = orderId then some resId else findReservationId rest orderId

/-- The `order.cancelled` subscription handler in `main`: find the
reservation for the order; when none exists, do nothing (only a log);
otherwise re-read the record (`reservations.get(reservationId)!` — the
inner `none` branch models the non-null assertion and is unreachable
because the found id is a key of the map), increment stock per reserved
line, delete the record, publish `inventory.released` and one
`inventory.updated` per released line. -/
def onOrderCancelledInv (st : InvState) (orderId : String) :
    InvState × List InvOutEvent :=
  match findReservationId st.reservations orderId with
  | none => (st, [])
  | some resId =>
      match alGet st.reservations resId with
      | none => (st, [])
      | some r =>
          let store1 := releaseInventory st.inventoryStore r.items
          let reservations1 := alErase st.reservations resId
          let updates := r.items.map
            (fun it => InvOutEvent.inventoryUpdated it.itemId (storeGet store1 it.itemId))
          (⟨store1, reservations1⟩,
           InvOutEvent.inventoryReleased resId orderId r.items :: updates)

/-- One bus-driven operation of the inventory service. -/
inductive InvOp
  | reserve (data : InvOrderCreatedMsg) (nowMs : Nat)
  | release (orderId : String)

/-- State transition of one operation (the published events dropped). -/
def invStep (st : InvState) (op : InvOp) : InvState :=
  match op with
  | .reserve data nowMs => (onOrderCreatedInv st data nowMs).1
  | .release orderId => (onOrderCancelledInv st orderId).1

/-- Run a sequence of operations from the seeded initial state. -/
def invRun (ops : List InvOp) : InvState :=
  ops.foldl invStep initInvState

/-- Total quantity the lines of `items` request for one `itemId`. -/
def lineSum (items : List InvItem) (itemId : String) : Int :=
  (items.map (fun it => if it.itemId = itemId then it.quantity else 0)).sum

/-- Total quantity held for `itemId` across all active reservations. -/
def resSum (rs : List (String × ResRecord)) (itemId : String) : Int :=
  (rs.map (fun p => lineSum p.2.items itemId)).sum

/-- Ledger invariant: non-negative stock, the conservation law against
the seeded catalog, and positivity of all reserved quantities. -/
def InvGood (st : InvState) : Prop :=
  (∀ itemId, 0 ≤ storeGet st.inventoryStore itemId) ∧
  (∀ itemId, storeGet st.inventoryStore itemId + resSum st.reservations itemId
      = storeGet inventoryStoreInit itemId) ∧
  (∀ p ∈ st.reservations, ∀ it ∈ p.2.items, 1 ≤ it.quantity)

/-- Well-formed traces: every reserve request has quantities ≥ 1 and
pairwise-distinct item ids, and is processed at a millisecond timestamp
whose generated reservation id is not already a key of the reservation
map (distinct `Date.now()` readings across reserves guarantee this). -/
inductive WFTrace : InvState → List InvOp → Prop
  | nil (st : InvState) : WFTrace st []
  | reserve (st : InvState) (data : InvOrderCreatedMsg) (nowMs : Nat)
      (ops : List InvOp)
      (hq : ∀ it ∈ data.items, 1 ≤ it.quantity)
      (hpw : data.items.Pairwise (fun a b => a.itemId ≠ b.itemId))
      (hfresh : mkReservationId nowMs ∉ st.reservations.map Prod.fst)
      (rest : WFTrace (invStep st (.reserve data nowMs)) ops) :
      WFTrace st (.reserve data nowMs :: ops)
  | release (st : InvState) (orderId : String) (ops : List InvOp)
      (rest : WFTrace (invStep st (.release orderId)) ops) :
      WFTrace st (.release orderId :: ops)

/-- Decimal digits of `n`, most significant first (clean structural
reformulation of `Nat.toDigitsCore`). -/
def decDigits (n : Nat) : List Char :=
  if h : n / 10 = 0 then [Nat.digitChar (n % 10)]
  else decDigits (n / 10) ++ [Nat.digitChar (n % 10)]
decreasing_by omega

/-- Recover the number from its decimal digit list. -/
def digitsVal (l : List Char) : Nat :=
  l.foldl (fun acc c => acc * 10 + (c.toNat - '0'.toNat)) 0

/-! ### Concrete sample inputs used by the witnesses -/

/-- A pending order used as concrete input. -/
def sampleOrder : Order :=
  { orderId := "ORD-1", userId := "U1", totalAmount := 42, items := [],
    status := .pending, createdAt := 0 }

/-- A completed order used as concrete input. -/
def sampleCompletedOrder : Order :=
  { sampleOrder with orderId := "ORD-9", status := .completed }

/-- A concrete reserve/release/reserve run used as witness trace. -/
def sampleInvOps : List InvOp :=
  [InvOp.reserve { orderId := "ORD-1", items := [{ itemId := "ITEM-001", quantity := 10 }] } 1,
   InvOp.release "ORD-1",
   InvOp.reserve { orderId := "ORD-2", items := [{ itemId := "ITEM-002", quantity := 5 }] } 2]

/-- The ledger state after one successful reservation for `ORD-1`. -/
def sampleReservedState : InvState :=
  (onOrderCreatedInv initInvState
     { orderId := "ORD-1", items := [{ itemId := "ITEM-001", quantity := 10 }] } 1).1

/-! ### Lemmas about the map operations -/

theorem alGet_alSet_self {α : Type} (m : List (String × α)) (k : String)
    (v : α) : alGet (alSet m k v) k = some v := by
  induction m with
  | nil => simp [alGet, alSet]
  | cons p rest ih =>
      obtain ⟨k', v'⟩ := p
      by_cases h : k' = k <;> simp [alGet, alSet, h, ih]

theorem alGet_alSet_ne {α : Type} (m : List (String × α)) (k k' : String)
    (v : α) (h : k' ≠ k) : alGet (alSet m k v) k' = alGet m k' := by
  have h2 : ¬(k = k') := fun hh => h hh.symm
  induction m with
  | nil => simp [alGet, alSet, h2]
  | cons p rest ih =>
      obtain ⟨k0, v0⟩ := p
      by_cases h0 : k0 = k
      · subst h0
        simp [alGet, alSet, h2]
      · simp only [alSet, if_neg h0]
        by_cases h1 : k0 = k' <;> simp [alGet, h1, ih]

theorem alSet_of_fresh {α : Type} (m : List (String × α)) (k : String)
    (v : α) (h : k ∉ m.map Prod.fst) : alSet m k v = m ++ [(k, v)] := by
  induction m with
  | nil => simp [alSet]
  | cons p rest ih =>
      obtain ⟨k0, v0⟩ := p
      simp only [List.map_cons, List.mem_cons] at h
      push_neg at h
      have h2 : ¬(k0 = k) := fun hh => h.1 hh.symm
      simp [alSet, h2, ih h.2]

theorem mem_of_mem_alSet {α : Type} {m : List (String × α)} {k : String}
    {v : α} {p : String × α} (h : p ∈ alSet m k v) : p ∈ m ∨ p = (k, v) := by
  induction m with
  | nil => simp [alSet] at h; simp [h]
  | cons q rest ih =>
      obtain ⟨k0, v0⟩ := q
      by_cases h0 : k0 = k
      · simp only [alSet, if_pos h0, List.mem_cons] at h
        rcases h with h | h
        · right; exact h
        · left; simp [h]
      · simp only [alSet, if_neg h0, List.mem_cons] at h
        rcases h with h | h
        · left; simp [h]
        · rcases ih h with h1 | h1
          · left; simp [h1]
          · right; exact h1

theorem mem_of_mem_alErase {α : Type} {m : List (String × α)} {k : String}
    {p : String × α} (h : p ∈ alErase m k) : p ∈ m := by
  induction m with
  | nil => simp [alErase] at h
  | cons q rest ih =>
      obtain ⟨k0, v0⟩ := q
      by_cases h0 : k0 = k
      · simp only [alErase, if_pos h0] at h
        simp [h]
      · simp only [alErase, if_neg h0, List.mem_cons] at h
        rcases h with h | h
        · simp [h]
        · simp [ih h]

theorem alGet_mem {α : Type} {m : List (String × α)} {k : String} {v : α}
    (h : alGet m k = some v) : (k, v) ∈ m := by
  induction m with
  | nil => simp [alGet] at h
  | cons p rest ih =>
      obtain ⟨k0, v0⟩ := p
      by_cases h0 : k0 = k
      · subst h0
        simp [alGet] at h
        simp [h]
      · simp only [alGet, if_neg h0] at h
        simp [ih h]

theorem findReservationId_mem {rs : List (String × ResRecord)}
    {orderId resId : String} (h : findReservationId rs orderId = some resId) :
    resId ∈ rs.map Prod.fst := by
  induction rs with
  | nil => simp [findReservationId] at h
  | cons p rest ih =>
      obtain ⟨k0, r0⟩ := p
      by_cases h0 : r0.orderId = orderId
      · simp only [findReservationId, if_pos h0, Option.some.injEq] at h
        simp [h]
      · simp only [findReservationId, if_neg h0] at h
        simp [ih h]

theorem alGet_isSome_of_mem_keys {α : Type} {m : List (String × α)}
    {k : String} (h : k ∈ m.map Prod.fst) : (alGet m k).isSome := by
  induction m with
  | nil => simp at h
  | cons p rest ih =>
      obtain ⟨k0, v0⟩ := p
      by_cases h0 : k0 = k
      · simp [alGet, h0]
      · simp only [List.map_cons, List.mem_cons] at h
        rcases h with h | h
        · exact absurd h.symm h0
        · simp [alGet, h0, ih h]

/-! ### Lemmas about the inventory arithmetic -/

theorem storeGet_alSet_self (s : List (String × Int)) (k : String) (v : Int) :
    storeGet (alSet s k v) k = v := by
  simp [storeGet, alGet_alSet_self]

theorem storeGet_alSet_ne (s : List (String × Int)) (k k' : String) (v : Int)
    (h : k' ≠ k) : storeGet (alSet s k v) k' = storeGet s k' := by
  simp [storeGet, alGet_alSet_ne s k k' v h]

theorem lineSum_nil (itemId : String) : lineSum [] itemId = 0 := rfl

theorem lineSum_cons (it : InvItem) (rest : List InvItem) (itemId : String) :
    lineSum (it :: rest) itemId =
      (if it.itemId = itemId then it.quantity else 0) + lineSum rest itemId := by
  simp [lineSum]

theorem lineSum_eq_zero (items : List InvItem) (itemId : String)
    (h : ∀ it ∈ items, it.itemId ≠ itemId) : lineSum items itemId = 0 := by
  induction items with
  | nil => rfl
  | cons it rest ih =>
      rw [lineSum_cons, if_neg (h it (by simp)), ih fun a ha => h a (by simp [ha])]
      simp

theorem lineSum_nonneg (items : List InvItem) (itemId : String)
    (h : ∀ it ∈ items, 1 ≤ it.quantity) : 0 ≤ lineSum items itemId := by
  induction items with
  | nil => simp [lineSum_nil]
  | cons it rest ih =>
      rw [lineSum_cons]
      have h1 := h it (by simp)
      have h2 := ih fun a ha => h a (by simp [ha])
      by_cases h0 : it.itemId = itemId <;> simp [h0] <;> omega

theorem storeGet_reserveInventory (items : List InvItem)
    (s : List (String × Int)) (itemId : String) :
    storeGet (reserveInventory s items) itemId =
      storeGet s itemId - lineSum items itemId := by
  induction items generalizing s with
  | nil => simp [reserveInventory, lineSum_nil]
  | cons it rest ih =>
      have step : reserveInventory s (it :: rest) =
          reserveInventory (alSet s it.itemId (storeGet s it.itemId - it.quantity)) rest := by
        simp [reserveInventory]
      rw [step, ih, lineSum_cons]
      by_cases h0 : it.itemId = itemId
      · subst h0
        rw [storeGet_alSet_self]
        simp
        omega
      · rw [storeGet_alSet_ne _ _ _ _ fun hh => h0 hh.symm, if_neg h0]
        omega

theorem storeGet_releaseInventory (items : List InvItem)
    (s : List (String × Int)) (itemId : String) :
    storeGet (releaseInventory s items) itemId =
      storeGet s itemId + lineSum items itemId := by
  induction items generalizing s with
  | nil => simp [releaseInventory, lineSum_nil]
  | cons it rest ih =>
      have step : releaseInventory s (it :: rest) =
          releaseInventory (alSet s it.itemId (storeGet s it.itemId + it.quantity)) rest := by
        simp [releaseInventory]
      rw [step, ih, lineSum_cons]
      by_cases h0 : it.itemId = itemId
      · subst h0
        rw [storeGet_alSet_self]
        simp
        omega
      · rw [storeGet_alSet_ne _ _ _ _ fun hh => h0 hh.symm, if_neg h0]
        omega

theorem checkInventoryAvailability_iff (s : List (String × Int))
    (items : List InvItem) :
    checkInventoryAvailability s items = true ↔
      ∀ it ∈ items, it.quantity ≤ storeGet s it.itemId := by
  simp [checkInventoryAvailability, not_lt]

theorem lineSum_le_storeGet (items : List InvItem) (s : List (String × Int))
    (itemId : String) (hnn : 0 ≤ storeGet s itemId)
    (hpw : items.Pairwise (fun a b => a.itemId ≠ b.itemId))
    (hchk : ∀ it ∈ items, it.quantity ≤ storeGet s it.itemId) :
    lineSum items itemId ≤ storeGet s itemId := by
  induction items with
  | nil => simp [lineSum_nil, hnn]
  | cons it rest ih =>
      rw [lineSum_cons]
      rcases List.pairwise_cons.mp hpw with ⟨hhd, hrest⟩
      by_cases h0 : it.itemId = itemId
      · have hz : lineSum rest itemId = 0 := by
          refine lineSum_eq_zero rest itemId fun a ha => ?hz
          rw [← h0]
          exact fun hh => hhd a ha hh.symm
        have := hchk it (by simp)
        rw [if_pos h0, hz, ← h0]
        omega
      · have := ih hrest fun a ha => hchk a (by simp [ha])
        rw [if_neg h0]
        omega

theorem resSum_nil (itemId : String) : resSum [] itemId = 0 := rfl

theorem resSum_append (rs rs' : List (String × ResRecord)) (itemId : String) :
    resSum (rs ++ rs') itemId = resSum rs itemId + resSum rs' itemId := by
  simp [resSum]

theorem resSum_singleton (k : String) (r : ResRecord) (itemId : String) :
    resSum [(k, r)] itemId = lineSum r.items itemId := by
  simp [resSum]

theorem resSum_alErase (rs : List (String × ResRecord)) (k : String)
    (r : ResRecord) (h : alGet rs k = some r) (itemId : String) :
    resSum (alErase rs k) itemId = resSum rs itemId - lineSum r.items itemId := by
  induction rs with
  | nil => simp [alGet] at h
  | cons p rest ih =>
      obtain ⟨k0, r0⟩ := p
      by_cases h0 : k0 = k
      · simp only [alGet, if_pos h0, Option.some.injEq] at h
        subst h
        simp [alErase, h0, resSum]
      · simp only [alGet, if_neg h0] at h
        simp only [alErase, if_neg h0]
        have := ih h
        simp only [resSum, List.map_cons, List.sum_cons] at this ⊢
        omega

/-! ### The ledger invariant -/

theorem invGood_reserve (st : InvState) (data : InvOrderCreatedMsg)
    (nowMs : Nat) (hgood : InvGood st)
    (hq : ∀ it ∈ data.items, 1 ≤ it.quantity)
    (hpw : data.items.Pairwise (fun a b => a.itemId ≠ b.itemId))
    (hfresh : mkReservationId nowMs ∉ st.reservations.map Prod.fst) :
    InvGood (invStep st (.reserve data nowMs)) := by
  obtain ⟨hnn, hcons, hpos⟩ := hgood
  by_cases hchk : checkInventoryAvailability st.inventoryStore data.items = true
  · have hstep : invStep st (.reserve data nowMs) =
        ⟨reserveInventory st.inventoryStore data.items,
         alSet st.reservations (mkReservationId nowMs)
           { orderId := data.orderId, items := data.items }⟩ := by
      simp [invStep, onOrderCreatedInv, hchk]
    rw [hstep]
    have hck := (checkInventoryAvailability_iff _ _).mp hchk
    have happ := alSet_of_fresh st.reservations (mkReservationId nowMs)
      { orderId := data.orderId, items := data.items } hfresh
    refine ⟨?nn, ?cons, ?pos⟩
    · intro itemId
      rw [storeGet_reserveInventory]
      have := lineSum_le_storeGet data.items st.inventoryStore itemId
        (hnn itemId) hpw hck
      omega
    · intro itemId
      rw [storeGet_reserveInventory]
      simp only [happ, resSum_append, resSum_singleton]
      have := hcons itemId
      omega
    · intro p hp it hit
      rw [happ] at hp
      rcases List.mem_append.mp hp with h | h
      · exact hpos p h it hit
      · simp at h
        subst h
        exact hq it hit
  · have hstep : invStep st (.reserve data nowMs) = st := by
      simp [invStep, onOrderCreatedInv, hchk]
    rw [hstep]
    exact ⟨hnn, hcons, hpos⟩

theorem invGood_release (st : InvState) (orderId : String)
    (hgood : InvGood st) : InvGood (invStep st (.release orderId)) := by
  obtain ⟨hnn, hcons, hpos⟩ := hgood
  match hfind : findReservationId st.reservations orderId with
  | none =>
      have hstep : invStep st (.release orderId) = st := by
        simp [invStep, onOrderCancelledInv, hfind]
      rw [hstep]
      exact ⟨hnn, hcons, hpos⟩
  | some resId =>
      have hsome := alGet_isSome_of_mem_keys (findReservationId_mem hfind)
      match hget : alGet st.reservations resId with
      | none => rw [hget] at hsome; simp at hsome
      | some r =>
          have hstep : invStep st (.release orderId) =
              ⟨releaseInventory st.inventoryStore r.items,
               alErase st.reservations resId⟩ := by
            simp [invStep, onOrderCancelledInv, hfind, hget]
          rw [hstep]
          have hrpos : ∀ it ∈ r.items, 1 ≤ it.quantity :=
            hpos (resId, r) (alGet_mem hget)
          refine ⟨?nn, ?cons, ?pos⟩
          · intro itemId
            rw [storeGet_releaseInventory]
            have := lineSum_nonneg r.items itemId hrpos
            have := hnn itemId
            omega
          · intro itemId
            rw [storeGet_releaseInventory,
              resSum_alErase st.reservations resId r hget]
            have := hcons itemId
            omega
          · intro p hp it hit
            exact hpos p (mem_of_mem_alErase hp) it hit

theorem invGood_run (ops : List InvOp) (st : InvState) (hgood : InvGood st)
    (htr : WFTrace st ops) : InvGood (ops.foldl invStep st) := by
  induction htr with
  | nil st => exact hgood
  | reserve st data nowMs ops hq hpw hfresh rest ih =>
      exact ih (invGood_reserve st data nowMs hgood hq hpw hfresh)
  | release st orderId ops rest ih =>
      exact ih (invGood_release st orderId hgood)

theorem invGood_init : InvGood initInvState := by
  refine ⟨?nn, ?cons, ?pos⟩
  · intro itemId
    simp only [initInvState, inventoryStoreInit, storeGet, alGet]
    by_cases h1 : "ITEM-001" = itemId
    · simp [h1]
    by_cases h2 : "ITEM-002" = itemId
    · simp [h1, h2]
    by_cases h3 : "ITEM-003" = itemId
    · simp [h1, h2, h3]
    by_cases h4 : "ITEM-004" = itemId
    · simp [h1, h2, h3, h4]
    · simp [h1, h2, h3, h4]
  · intro itemId
    simp [initInvState, resSum_nil]
  · intro p hp
    simp [initInvState] at hp

/-! ### Injectivity of the decimal rendering used by `` `RES-${Date.now()}` `` -/

theorem decDigits_of_small {n : Nat} (h : n / 10 = 0) :
    decDigits n = [Nat.digitChar (n % 10)] := by
  rw [decDigits, dif_pos h]

theorem decDigits_of_large {n : Nat} (h : ¬(n / 10 = 0)) :
    decDigits n = decDigits (n / 10) ++ [Nat.digitChar (n % 10)] := by
  rw [decDigits, dif_neg h]

theorem toDigitsCore_eq_decDigits (fuel : Nat) :
    ∀ n ds, n < fuel →
      Nat.toDigitsCore 10 fuel n ds = decDigits n ++ ds := by
  induction fuel with
  | zero => intro n ds h; omega
  | succ fuel ih =>
      intro n ds h
      by_cases h0 : n / 10 = 0
      · simp [Nat.toDigitsCore, h0, decDigits_of_small h0]
      · have hlt : n / 10 < fuel := by omega
        simp only [Nat.toDigitsCore, if_neg h0]
        rw [ih (n / 10) _ hlt, decDigits_of_large h0, List.append_assoc]
        rfl

theorem repr_eq_decDigits (n : Nat) : Nat.repr n = (decDigits n).asString := by
  show (Nat.toDigits 10 n).asString = (decDigits n).asString
  rw [Nat.toDigits, toDigitsCore_eq_decDigits (n + 1) n [] (by omega),
    List.append_nil]

theorem digitsVal_append_singleton (l : List Char) (c : Char) :
    digitsVal (l ++ [c]) = digitsVal l * 10 + (c.toNat - '0'.toNat) := by
  simp [digitsVal, List.foldl_append]

theorem digitChar_val {r : Nat} (h : r < 10) :
    (Nat.digitChar r).toNat - '0'.toNat = r := by
  interval_cases r <;> decide

theorem digitsVal_decDigits (n : Nat) : digitsVal (decDigits n) = n := by
  by_cases h0 : n / 10 = 0
  · rw [decDigits_of_small h0]
    have hv := digitChar_val (show n % 10 < 10 by omega)
    have h48 : '0'.toNat = 48 := rfl
    rw [h48] at hv
    simp [digitsVal]
    omega
  · rw [decDigits_of_large h0, digitsVal_append_singleton,
      digitsVal_decDigits (n / 10), digitChar_val (show n % 10 < 10 by omega)]
    omega
decreasing_by omega

theorem decDigits_injective {m n : Nat} (h : decDigits m = decDigits n) :
    m = n := by
  have := congrArg digitsVal h
  rwa [digitsVal_decDigits, digitsVal_decDigits] at this

theorem asString_injective {l l' : List Char} (h : l.asString = l'.asString) :
    l = l' := by
  have := congrArg String.data h
  simpa [List.asString] using this

theorem natRepr_injective {m n : Nat} (h : Nat.repr m = Nat.repr n) :
    m = n := by
  rw [repr_eq_decDigits, repr_eq_decDigits] at h
  exact decDigits_injective (asString_injective h)

theorem mkReservationId_injective {t1 t2 : Nat}
    (h : mkReservationId t1 = mkReservationId t2) : t1 = t2 := by
  have hd := congrArg String.data h
  simp only [mkReservationId, String.data_append] at hd
  have : (toString t1 : String).data = (toString t2 : String).data :=
    List.append_cancel_left hd
  exact natRepr_injective (String.ext this)

/-! ### The claims -/

/-- C1: the specification states that `handlePaymentFailed` applied to an
order whose status is already terminal (`cancelled` or `completed`) is a
no-op, giving terminal-status monotonicity. The code contradicts it: the
guard checks only `cancelled`, so on an already-`completed` order the
handler cancels it again — the order map changes and an
`order.cancelled` event is published, so a terminal status is not
stable. This theorem evaluates the code at the failing input. -/
theorem C1_terminal_monotonicity_fails_on_completed :
    handlePaymentFailed
        [("ORD-9", sampleCompletedOrder)]
        { paymentId := "PAY-1", orderId := "ORD-9",
          failureReason := "card declined" } =
      ([("ORD-9", { sampleCompletedOrder with status := .cancelled })],
       [OrdersOutEvent.orderCancelled "ORD-9"
          "Payment failed: card declined"]) := by
  decide

/-- C6: `handleShipmentDelivered` on an existing `pending` order marks it
`completed` and publishes `order.completed` whose `completionTime` is
the processing-time clock `now`, independent of the message's
`deliveryTime` field; on an unknown or terminal order it is a no-op. -/
theorem C6_shipment_delivered_completion (orders : OrdersMap)
    (data : ShipmentDeliveredMsg) (now : String) :
    (∀ o, alGet orders data.orderId = some o → o.status = .pending →
       handleShipmentDelivered orders data now =
         (alSet orders data.orderId { o with status := .completed },
          [OrdersOutEvent.orderCompleted data.orderId now])) ∧
    (alGet orders data.orderId = none →
       handleShipmentDelivered orders data now = (orders, [])) ∧
    (∀ o, alGet orders data.orderId = some o →
       o.status = .cancelled ∨ o.status = .completed →
       handleShipmentDelivered orders data now = (orders, [])) ∧
    (∀ dt, handleShipmentDelivered orders { data with deliveryTime := dt } now =
       handleShipmentDelivered orders data now) := by
  refine ⟨?pend, ?unk, ?term, ?indep⟩
  · intro o hget hp
    simp [handleShipmentDelivered, hget, hp, sendOrderCompleted]
  · intro hget
    simp [handleShipmentDelivered, hget]
  · intro o hget hterm
    rcases hterm with h | h <;> simp [handleShipmentDelivered, hget, h]
  · intro dt
    simp [handleShipmentDelivered]

/-- C6 witness: a pending order is completed at processing time
`"2024-01-02T09:30:00Z"` even though the message carries the different
`deliveryTime` `"2024-01-01T00:00:00Z"`. -/
theorem C6_shipment_delivered_completion_witness :
    handleShipmentDelivered [("ORD-1", sampleOrder)]
        { orderId := "ORD-1", shipmentId := "SHIP-1",
          deliveryTime := "2024-01-01T00:00:00Z" } "2024-01-02T09:30:00Z" =
      ([("ORD-1", { sampleOrder with status := .completed })],
       [OrdersOutEvent.orderCompleted "ORD-1" "2024-01-02T09:30:00Z"]) :=
  (C6_shipment_delivered_completion [("ORD-1", sampleOrder)]
      { orderId := "ORD-1", shipmentId := "SHIP-1",
        deliveryTime := "2024-01-01T00:00:00Z" } "2024-01-02T09:30:00Z").1
    sampleOrder (by decide) (by decide)

/-- C7: `handlePaymentFailed` on an existing `pending` order cancels it
and publishes `order.cancelled` whose reason is the string
`"Payment failed: "` concatenated with the incoming `failureReason`. -/
theorem C7_payment_failed_reason (orders : OrdersMap)
    (data : PaymentFailedMsg) (o : Order)
    (hget : alGet orders data.orderId = some o)
    (hp : o.status = .pending) :
    handlePaymentFailed orders data =
      (alSet orders data.orderId { o with status := .cancelled },
       [OrdersOutEvent.orderCancelled data.orderId
          ("Payment failed: " ++ data.failureReason)]) := by
  simp [handlePaymentFailed, hget, hp, sendOrderCancelled]

/-- C7 witness: failure reason `"card declined"` yields the published
reason `"Payment failed: card declined"` (Scenario 4). -/
theorem C7_payment_failed_reason_witness :
    handlePaymentFailed [("ORD-1", sampleOrder)]
        { paymentId := "PAY-1", orderId := "ORD-1",
          failureReason := "card declined" } =
      ([("ORD-1", { sampleOrder with status := .cancelled })],
       [OrdersOutEvent.orderCancelled "ORD-1"
          "Payment failed: card declined"]) :=
  C7_payment_failed_reason [("ORD-1", sampleOrder)]
    { paymentId := "PAY-1", orderId := "ORD-1",
      failureReason := "card declined" } sampleOrder (by decide) (by decide)

/-- C10: frame property — when `handlePaymentFailed` or
`handleShipmentDelivered` does transition an order to a terminal status,
the new order map is exactly the old one with the matching order's
`status` replaced (all its other fields kept by the record update) and
every other key maps to its old record. -/
theorem C10_terminal_transition_frame (orders : OrdersMap) (o : Order) :
    (∀ pf : PaymentFailedMsg, alGet orders pf.orderId = some o →
       o.status ≠ .cancelled →
       (handlePaymentFailed orders pf).1 =
         alSet orders pf.orderId { o with status := .cancelled } ∧
       alGet (handlePaymentFailed orders pf).1 pf.orderId =
         some { o with status := .cancelled } ∧
       (∀ k, k ≠ pf.orderId →
         alGet (handlePaymentFailed orders pf).1 k = alGet orders k)) ∧
    (∀ sd : ShipmentDeliveredMsg, ∀ now : String,
       alGet orders sd.orderId = some o →
       o.status ≠ .cancelled → o.status ≠ .completed →
       (handleShipmentDelivered orders sd now).1 =
         alSet orders sd.orderId { o with status := .completed } ∧
       alGet (handleShipmentDelivered orders sd now).1 sd.orderId =
         some { o with status := .completed } ∧
       (∀ k, k ≠ sd.orderId →
         alGet (handleShipmentDelivered orders sd now).1 k = alGet orders k)) := by
  constructor
  · intro pf hget hnc
    have hres : (handlePaymentFailed orders pf).1 =
        alSet orders pf.orderId { o with status := .cancelled } := by
      simp [handlePaymentFailed, hget, hnc, sendOrderCancelled]
    refine ⟨hres, ?self, ?other⟩
    · rw [hres, alGet_alSet_self]
    · intro k hk
      rw [hres, alGet_alSet_ne _ _ _ _ hk]
  · intro sd now hget hnc hncmp
    have hres : (handleShipmentDelivered orders sd now).1 =
        alSet orders sd.orderId { o with status := .completed } := by
      simp [handleShipmentDelivered, hget, hnc, hncmp, sendOrderCompleted]
    refine ⟨hres, ?self2, ?other2⟩
    · rw [hres, alGet_alSet_self]
    · intro k hk
      rw [hres, alGet_alSet_ne _ _ _ _ hk]

/-- C10 witness: cancelling `ORD-1` in a two-order map rewrites only
`ORD-1`'s status and leaves `ORD-9` untouched. -/
theorem C10_terminal_transition_frame_witness :
    (handlePaymentFailed [("ORD-1", sampleOrder), ("ORD-9", sampleCompletedOrder)]
        { paymentId := "PAY-1", orderId := "ORD-1", failureReason := "x" }).1 =
      alSet [("ORD-1", sampleOrder), ("ORD-9", sampleCompletedOrder)] "ORD-1"
        { sampleOrder with status := .cancelled } ∧
    alGet (handlePaymentFailed [("ORD-1", sampleOrder), ("ORD-9", sampleCompletedOrder)]
        { paymentId := "PAY-1", orderId := "ORD-1", failureReason := "x" }).1 "ORD-9" =
      alGet [("ORD-1", sampleOrder), ("ORD-9", sampleCompletedOrder)] "ORD-9" := by
  have h := (C10_terminal_transition_frame
      [("ORD-1", sampleOrder), ("ORD-9", sampleCompletedOrder)] sampleOrder).1
    { paymentId := "PAY-1", orderId := "ORD-1", failureReason := "x" }
    (by decide) (by decide)
  exact ⟨h.1, h.2.2 "ORD-9" (by decide)⟩

/-- C9, counterexample: the claim says `cancelOrder` reports
`UnknownOrder`/`AlreadyTerminal` to the caller as a non-fatal error
result. The source function returns TypeScript `void`: on an unknown
order and on an already-terminal order alike, the caller-visible outcome
is the unchanged map with no published event and no error value —
exactly the silent ignore the claim rules out — while the
specification-side `cancelOrderSpecced` returns the mandated errors. -/
theorem C9_cancel_order_reporting_counterexample :
    cancelOrder [] "ORD-X" "operator request" = ([], []) ∧
    cancelOrderSpecced [] "ORD-X" "operator request" =
      .error .unknownOrder ∧
    cancelOrder [("ORD-9", sampleCompletedOrder)] "ORD-9" "operator request" =
      ([("ORD-9", sampleCompletedOrder)], []) ∧
    cancelOrderSpecced [("ORD-9", sampleCompletedOrder)] "ORD-9"
        "operator request" = .error .alreadyTerminal :=
  ⟨by decide, rfl, by decide, rfl⟩

/-- C9, amended: `cancelOrder` detects the unknown-order and
already-terminal conditions but absorbs them, returning no caller-visible
error result — the call is a pure no-op that publishes nothing; when the
order exists and is not terminal, it performs the payment-failure
transition with the caller's reason: status becomes `cancelled` and one
`order.cancelled` event with that reason is published. -/
theorem C9_cancel_order_amended (orders : OrdersMap) (oid reason : String) :
    (alGet orders oid = none → cancelOrder orders oid reason = (orders, [])) ∧
    (∀ o, alGet orders oid = some o →
       o.status = .cancelled ∨ o.status = .completed →
       cancelOrder orders oid reason = (orders, [])) ∧
    (∀ o, alGet orders oid = some o →
       o.status ≠ .cancelled → o.status ≠ .completed →
       cancelOrder orders oid reason =
         (alSet orders oid { o with status := .cancelled },
          [OrdersOutEvent.orderCancelled oid reason])) := by
  refine ⟨?unk, ?term, ?act⟩
  · intro hget
    simp [cancelOrder, hget]
  · intro o hget hterm
    rcases hterm with h | h <;> simp [cancelOrder, hget, h]
  · intro o hget hnc hncmp
    simp [cancelOrder, hget, hnc, hncmp, sendOrderCancelled]

/-- C9 witness: the operator cancellation of a pending order. -/
theorem C9_cancel_order_amended_witness :
    cancelOrder [("ORD-1", sampleOrder)] "ORD-1" "operator request" =
      ([("ORD-1", { sampleOrder with status := .cancelled })],
       [OrdersOutEvent.orderCancelled "ORD-1" "operator request"]) :=
  (C9_cancel_order_amended [("ORD-1", sampleOrder)] "ORD-1"
      "operator request").2.2 sampleOrder (by decide) (by decide) (by decide)

/-- C2, counterexample: the Inventory Ledger has no per-`orderId`
deduplication. Delivering the same `OrderCreated` for `ORD-1`
(10 × ITEM-001) twice, at milliseconds 1 and 2, decrements ITEM-001
twice (100 → 80, not 90) and stores two active reservation records for
`ORD-1`, refuting "at most one active Reservation" and "no second stock
decrement". -/
theorem C2_creation_idempotence_counterexample :
    (let msg : InvOrderCreatedMsg :=
       { orderId := "ORD-1", items := [{ itemId := "ITEM-001", quantity := 10 }] }
     let st2 := (onOrderCreatedInv (onOrderCreatedInv initInvState msg 1).1 msg 2).1
     (st2.reservations.filter (fun p => p.2.orderId == "ORD-1")).length = 2 ∧
     storeGet st2.inventoryStore "ITEM-001" = 80) := by
  decide

/-- C2, amended: two `OrderCreated` events with the same `orderId`
produce exactly one Order record in the coordinator — the second
delivery leaves the order map exactly as the first left it, so all
stored fields are preserved; the Inventory Ledger, however, runs the
full reservation path again on the duplicate: when stock still passes
the availability check it decrements the stock a second time and stores
a second reservation record for the same `orderId`. -/
theorem C2_creation_idempotence_amended :
    (∀ (orders : OrdersMap) (data : OrderCreatedMsg) (n1 n2 : Nat),
       handleOrderCreated (handleOrderCreated orders data n1) data n2 =
         handleOrderCreated orders data n1) ∧
    (let msg : InvOrderCreatedMsg :=
       { orderId := "ORD-1", items := [{ itemId := "ITEM-001", quantity := 10 }] }
     let st2 := (onOrderCreatedInv (onOrderCreatedInv initInvState msg 1).1 msg 2).1
     (st2.reservations.filter (fun p => p.2.orderId == "ORD-1")).length = 2 ∧
     storeGet st2.inventoryStore "ITEM-001" = 80) := by
  constructor
  · intro orders data n1 n2
    by_cases h : alHas orders data.orderId = true
    · simp [handleOrderCreated, h]
    · have h2 : alHas
          (alSet orders data.orderId
            { orderId := data.orderId, userId := data.userId,
              totalAmount := data.totalAmount, items := data.items,
              status := .pending, createdAt := n1 }) data.orderId = true := by
        simp [alHas, alGet_alSet_self]
      simp [handleOrderCreated, h, h2]
  · decide

/-- C3: the reservation path is all-or-nothing. If some requested line
has `availableQuantity < quantity`, the handler changes nothing and
publishes nothing; if every line passes the check, each item's stock
drops by exactly the total quantity its lines request, a reservation
record bound to the orderId is stored, and `inventory.reserved` is
published first, followed by the per-line `inventory.updated` events. -/
theorem C3_reserve_all_or_nothing (st : InvState) (data : InvOrderCreatedMsg)
    (now : Nat) :
    ((∃ it ∈ data.items, storeGet st.inventoryStore it.itemId < it.quantity) →
       onOrderCreatedInv st data now = (st, [])) ∧
    ((∀ it ∈ data.items, it.quantity ≤ storeGet st.inventoryStore it.itemId) →
       (∀ itemId, storeGet (onOrderCreatedInv st data now).1.inventoryStore itemId =
           storeGet st.inventoryStore itemId - lineSum data.items itemId) ∧
       alGet (onOrderCreatedInv st data now).1.reservations (mkReservationId now) =
         some { orderId := data.orderId, items := data.items } ∧
       (onOrderCreatedInv st data now).2 =
         InvOutEvent.inventoryReserved (mkReservationId now) data.orderId data.items ::
           data.items.map (fun it => InvOutEvent.inventoryUpdated it.itemId
             (storeGet (onOrderCreatedInv st data now).1.inventoryStore it.itemId))) := by
  constructor
  · rintro ⟨it, hmem, hlt⟩
    have hchk : checkInventoryAvailability st.inventoryStore data.items = false := by
      rw [Bool.eq_false_iff]
      intro hc
      have := (checkInventoryAvailability_iff _ _).mp hc it hmem
      omega
    simp [onOrderCreatedInv, hchk]
  · intro hall
    have hchk : checkInventoryAvailability st.inventoryStore data.items = true :=
      (checkInventoryAvailability_iff _ _).mpr hall
    refine ⟨?dec, ?res, ?ev⟩
    · intro itemId
      simp [onOrderCreatedInv, hchk, storeGet_reserveInventory]
    · simp [onOrderCreatedInv, hchk, alGet_alSet_self]
    · simp [onOrderCreatedInv, hchk]

/-- C3 witness: requesting 60 × ITEM-002 against a stock of 50 changes
nothing (Scenario 3); requesting 10 × ITEM-001 against a stock of 100
decrements that line by exactly 10. -/
theorem C3_reserve_all_or_nothing_witness :
    onOrderCreatedInv initInvState
        { orderId := "ORD-2", items := [{ itemId := "ITEM-002", quantity := 60 }] } 7 =
      (initInvState, []) ∧
    storeGet (onOrderCreatedInv initInvState
        { orderId := "ORD-1", items := [{ itemId := "ITEM-001", quantity := 10 }] }
        7).1.inventoryStore "ITEM-001" =
      storeGet initInvState.inventoryStore "ITEM-001" -
        lineSum [{ itemId := "ITEM-001", quantity := 10 }] "ITEM-001" :=
  ⟨(C3_reserve_all_or_nothing initInvState
      { orderId := "ORD-2", items := [{ itemId := "ITEM-002", quantity := 60 }] } 7).1
     ⟨{ itemId := "ITEM-002", quantity := 60 }, by decide, by decide⟩,
   ((C3_reserve_all_or_nothing initInvState
      { orderId := "ORD-1", items := [{ itemId := "ITEM-001", quantity := 10 }] } 7).2
     (by decide)).1 "ITEM-001"⟩

/-- C5: `release` (the order-cancelled handler) with no active
reservation for the orderId changes nothing and publishes nothing; with
an active reservation it increments each reserved line's stock by the
reserved quantity, deletes that reservation record, and publishes
`inventory.released` reporting the freed reservation's lines, followed
by per-line `inventory.updated` events. -/
theorem C5_release_safety (st : InvState) (orderId : String) :
    (findReservationId st.reservations orderId = none →
       onOrderCancelledInv st orderId = (st, [])) ∧
    (∀ resId r, findReservationId st.reservations orderId = some resId →
       alGet st.reservations resId = some r →
       onOrderCancelledInv st orderId =
         ({ inventoryStore := releaseInventory st.inventoryStore r.items,
            reservations := alErase st.reservations resId },
          InvOutEvent.inventoryReleased resId orderId r.items ::
            r.items.map (fun it => InvOutEvent.inventoryUpdated it.itemId
              (storeGet (releaseInventory st.inventoryStore r.items) it.itemId))) ∧
       (∀ itemId, storeGet (releaseInventory st.inventoryStore r.items) itemId =
          storeGet st.inventoryStore itemId + lineSum r.items itemId)) := by
  constructor
  · intro hfind
    simp [onOrderCancelledInv, hfind]
  · intro resId r hfind hget
    refine ⟨by simp [onOrderCancelledInv, hfind, hget], ?eq⟩
    intro itemId
    exact storeGet_releaseInventory r.items st.inventoryStore itemId

/-- C5 witness: releasing the unknown order `ORD-404` mutates nothing;
releasing `ORD-1` from the state holding its 10 × ITEM-001 reservation
returns that line's stock. -/
theorem C5_release_safety_witness :
    onOrderCancelledInv initInvState "ORD-404" = (initInvState, []) ∧
    storeGet (releaseInventory sampleReservedState.inventoryStore
        [{ itemId := "ITEM-001", quantity := 10 }]) "ITEM-001" =
      storeGet sampleReservedState.inventoryStore "ITEM-001" +
        lineSum [{ itemId := "ITEM-001", quantity := 10 }] "ITEM-001" :=
  ⟨(C5_release_safety initInvState "ORD-404").1 (by decide),
   ((C5_release_safety sampleReservedState "ORD-1").2 (mkReservationId 1)
      { orderId := "ORD-1", items := [{ itemId := "ITEM-001", quantity := 10 }] }
      (by decide) (by decide)).2 "ITEM-001"⟩

/-- C4, counterexample: with only the claimed precondition (every line's
quantity ≥ 1) the invariant fails. A single reserve whose request lists
ITEM-001 twice with quantity 60 passes the per-line check against the
seeded stock of 100, then decrements twice, driving `availableQuantity`
to −20. Moreover two reserves in the same millisecond generate the same
reservation id, so the second record overwrites the first and the
conservation sum drops to 90 against the seeded 100. -/
theorem C4_conservation_counterexample :
    (∀ it ∈ [InvItem.mk "ITEM-001" 60, InvItem.mk "ITEM-001" 60],
       1 ≤ it.quantity) ∧
    storeGet (invRun [InvOp.reserve
        { orderId := "ORD-1",
          items := [InvItem.mk "ITEM-001" 60, InvItem.mk "ITEM-001" 60] } 1]
      ).inventoryStore "ITEM-001" = -20 ∧
    (let st := invRun
        [InvOp.reserve { orderId := "ORD-1", items := [InvItem.mk "ITEM-001" 10] } 5,
         InvOp.reserve { orderId := "ORD-2", items := [InvItem.mk "ITEM-001" 10] } 5]
     storeGet st.inventoryStore "ITEM-001" + resSum st.reservations "ITEM-001" = 90 ∧
     storeGet inventoryStoreInit "ITEM-001" = 100) := by
  decide

/-- C4, amended: after any finite sequence of reserve and release
operations from the seeded catalog in which every reserve request has
line quantities ≥ 1 AND pairwise-distinct item ids, and every reserve
runs at a millisecond whose generated reservation id is not already in
the reservation map (distinct `Date.now()` readings), every item keeps
`availableQuantity ≥ 0` and `availableQuantity` plus the sum of that
item's quantities across active reservations equals its seeded
quantity. -/
theorem C4_conservation_amended (ops : List InvOp)
    (htr : WFTrace initInvState ops) (itemId : String) :
    0 ≤ storeGet (invRun ops).inventoryStore itemId ∧
    storeGet (invRun ops).inventoryStore itemId +
        resSum (invRun ops).reservations itemId =
      storeGet inventoryStoreInit itemId := by
  have h := invGood_run ops initInvState invGood_init htr
  exact ⟨h.1 itemId, h.2.1 itemId⟩

/-- C4 witness: the reserve–release–reserve run `sampleInvOps` is a
well-formed trace and ITEM-001 satisfies both invariant clauses at its
end. -/
theorem C4_conservation_amended_witness :
    0 ≤ storeGet (invRun sampleInvOps).inventoryStore "ITEM-001" ∧
    storeGet (invRun sampleInvOps).inventoryStore "ITEM-001" +
        resSum (invRun sampleInvOps).reservations "ITEM-001" =
      storeGet inventoryStoreInit "ITEM-001" :=
  C4_conservation_amended sampleInvOps
    (by
      unfold sampleInvOps
      refine WFTrace.reserve _ _ _ _ (by decide) (by decide) (by decide) ?r1
      refine WFTrace.release _ _ _ ?r2
      refine WFTrace.reserve _ _ _ _ (by decide) (by decide) (by decide) ?r3
      exact WFTrace.nil _)
    "ITEM-001"

/-- C8, counterexample: reservation ids are `` `RES-${Date.now()}` ``,
so two successful reservations in the same millisecond (clock reading 5)
receive the identical id `RES-5`, and storing the second overwrites the
first record: afterwards only `ORD-2`'s reservation is in the map and
`ORD-1`'s active record is gone. -/
theorem C8_fresh_reservation_id_counterexample :
    (let r1 := onOrderCreatedInv initInvState
        { orderId := "ORD-1", items := [InvItem.mk "ITEM-001" 10] } 5
     let r2 := onOrderCreatedInv r1.1
        { orderId := "ORD-2", items := [InvItem.mk "ITEM-002" 5] } 5
     mkReservationId 5 = "RES-5" ∧
     r1.2.head? = some (InvOutEvent.inventoryReserved "RES-5" "ORD-1"
        [InvItem.mk "ITEM-001" 10]) ∧
     r2.2.head? = some (InvOutEvent.inventoryReserved "RES-5" "ORD-2"
        [InvItem.mk "ITEM-002" 5]) ∧
     r2.1.reservations =
       [("RES-5", { orderId := "ORD-2", items := [InvItem.mk "ITEM-002" 5] })] ∧
     (r2.1.reservations.filter (fun p => p.2.orderId == "ORD-1")).length = 0) := by
  decide

/-- C8, amended: the generated reservation id is determined by the
observed millisecond — two successful calls observing distinct
`Date.now()` values get distinct ids, and storing under an id that is
not yet a key appends the record, preserving every existing active
reservation record; only same-millisecond calls collide and overwrite. -/
theorem C8_fresh_reservation_id_amended :
    (∀ t1 t2 : Nat, t1 ≠ t2 → mkReservationId t1 ≠ mkReservationId t2) ∧
    (∀ (st : InvState) (data : InvOrderCreatedMsg) (now : Nat),
       checkInventoryAvailability st.inventoryStore data.items = true →
       mkReservationId now ∉ st.reservations.map Prod.fst →
       (onOrderCreatedInv st data now).1.reservations =
         st.reservations ++
           [(mkReservationId now, { orderId := data.orderId, items := data.items })]) := by
  constructor
  · intro t1 t2 hne heq
    exact hne (mkReservationId_injective heq)
  · intro st data now hchk hfresh
    simp [onOrderCreatedInv, hchk, alSet_of_fresh _ _ _ hfresh]

/-- C8 witness: milliseconds 1 and 2 give different ids, and reserving
at millisecond 1 in the empty reservation map appends the new record. -/
theorem C8_fresh_reservation_id_amended_witness :
    mkReservationId 1 ≠ mkReservationId 2 ∧
    (onOrderCreatedInv initInvState
        { orderId := "ORD-1", items := [InvItem.mk "ITEM-001" 10] } 1).1.reservations =
      [(mkReservationId 1,
        { orderId := "ORD-1", items := [InvItem.mk "ITEM-001" 10] })] :=
  ⟨C8_fresh_reservation_id_amended.1 1 2 (by decide),
   C8_fresh_reservation_id_amended.2 initInvState
     { orderId := "ORD-1", items := [InvItem.mk "ITEM-001" 10] } 1
     (by decide) (by decide)⟩
